import Mathlib

/-!
A shallow embedding of the resource-detection engine of the zikra
repository (src/lib/plugins/paper.ts, detection/types.ts and the four
built-in detectors), together with proofs of the specified properties.

Strings are modelled as Lean `String` (a list of characters); the
JavaScript runtime pieces the code relies on (`String.prototype.trim`,
`includes`, `split`, the regular expressions, the stable `Array.sort`,
and the WHATWG `URL` parser restricted to the http(s) inputs used here)
are given explicit executable definitions.
-/

/-- Confidence level for resource detection (detection/types.ts). -/
inductive DetectionConfidence where
  | definite
  | high
  | medium
  | low
deriving DecidableEq, Repr

/-- Numeric confidence scores for sorting (detection/types.ts). -/
def CONFIDENCE_SCORES : DetectionConfidence → Nat
  | .definite => 100
  | .high => 80
  | .medium => 50
  | .low => 20

/-- The type of input detected (detection/types.ts). -/
inductive InputType where
  | url
  | identifier
  | searchQuery
  | title
deriving DecidableEq, Repr

/-- A value stored in the free-form `metadata` record of a detection. -/
inductive MetaValue where
  | str (s : String)
  | num (n : Nat)
  | boolVal (b : Bool)
deriving DecidableEq, Repr

/-- The optional `context` carried by a detection result. -/
structure DetectionContext where
  extractedId : Option String := none
  matchedPattern : Option String := none
  metadata : List (String × MetaValue) := []
deriving DecidableEq, Repr

/-- Result from detecting what type of resource the input might be. -/
structure DetectionResult where
  pluginId : String
  displayName : String
  confidence : DetectionConfidence
  inputType : InputType
  context : Option DetectionContext := none
deriving DecidableEq, Repr

/-- A registered resource detector: the `detectAll` field is optional in
the source, the engine falls back to the single `detect`. -/
structure ResourceDetector where
  id : String
  priority : Int
  detect : String → Option DetectionResult
  detectAll : Option (String → List DetectionResult)

/-- Configuration for the detection engine (detection/types.ts). -/
structure DetectionEngineConfig where
  minConfidence : DetectionConfidence
  maxSuggestions : Nat
  debounceMs : Nat
deriving DecidableEq, Repr

/-- Default configuration (paper.ts, DEFAULT_CONFIG). -/
def DEFAULT_CONFIG : DetectionEngineConfig :=
  { minConfidence := .low, maxSuggestions := 5, debounceMs := 300 }

/-- The character set treated as whitespace by the JavaScript runtime
(`\s`, `trim`, `split(/\s+/)`). -/
def isJsWs (c : Char) : Bool :=
  c = ' ' || c = '\t' || c = '\n' || c = '\r' ||
  c = Char.ofNat 0x0b || c = Char.ofNat 0x0c ||
  c = Char.ofNat 0xa0 || c = Char.ofNat 0x1680 ||
  (Char.ofNat 0x2000 ≤ c && c ≤ Char.ofNat 0x200a) ||
  c = Char.ofNat 0x2028 || c = Char.ofNat 0x2029 ||
  c = Char.ofNat 0x202f || c = Char.ofNat 0x205f ||
  c = Char.ofNat 0x3000 || c = Char.ofNat 0xfeff

/-- Model of `String.prototype.trim` on character lists. -/
def trimCh (l : List Char) : List Char :=
  ((l.dropWhile isJsWs).reverse.dropWhile isJsWs).reverse

/-- Model of `String.prototype.trim`. -/
def jsTrim (s : String) : String := ⟨trimCh s.data⟩

/-- Model of `String.prototype.includes` on character lists. -/
def containsSub (needle : List Char) : List Char → Bool
  | [] => decide (needle = [])
  | c :: cs => needle.isPrefixOf (c :: cs) || containsSub needle cs

/-- Stable insertion (descending by `key`): the new element is placed
before the first element whose key is not larger, which is exactly the
relative order a stable `Array.sort` with comparator `key b - key a`
produces. -/
def insertDesc (key : α → Int) (a : α) : List α → List α
  | [] => [a]
  | b :: bs => if key a < key b then b :: insertDesc key a bs else a :: b :: bs

/-- Stable sort, descending by `key`: the unique stable sort, hence a
faithful model of the stable JavaScript `Array.prototype.sort`. -/
def sortDesc (key : α → Int) : List α → List α
  | [] => []
  | a :: as => insertDesc key a (sortDesc key as)

theorem mem_insertDesc (key : α → Int) (a x : α) (l : List α) :
    x ∈ insertDesc key a l ↔ x = a ∨ x ∈ l := by
  induction l with
  | nil => simp [insertDesc]
  | cons b bs ih =>
    simp only [insertDesc]
    split
    · simp only [List.mem_cons, ih]
      tauto
    · simp only [List.mem_cons]

theorem mem_sortDesc (key : α → Int) (x : α) (l : List α) :
    x ∈ sortDesc key l ↔ x ∈ l := by
  induction l with
  | nil => simp [sortDesc]
  | cons a as ih => simp [sortDesc, mem_insertDesc, ih]

theorem pairwise_insertDesc (key : α → Int) (a : α) (l : List α)
    (h : l.Pairwise (fun x y => key y ≤ key x)) :
    (insertDesc key a l).Pairwise (fun x y => key y ≤ key x) := by
  induction l with
  | nil => simp [insertDesc]
  | cons b bs ih =>
    rw [List.pairwise_cons] at h
    simp only [insertDesc]
    split
    · rename_i hlt
      rw [List.pairwise_cons]
      refine ⟨fun c hc => ?_, ih h.2⟩
      rcases (mem_insertDesc key a c bs).mp hc with rfl | hc
      · omega
      · exact h.1 c hc
    · rename_i hge
      rw [List.pairwise_cons]
      refine ⟨fun c hc => ?_, by rw [List.pairwise_cons]; exact h⟩
      rcases List.mem_cons.mp hc with rfl | hc2
      · omega
      · have := h.1 c hc2
        omega

theorem pairwise_sortDesc (key : α → Int) (l : List α) :
    (sortDesc key l).Pairwise (fun x y => key y ≤ key x) := by
  induction l with
  | nil => simp [sortDesc]
  | cons a as ih => exact pairwise_insertDesc key a _ ih

theorem pairwise_tag_insertDesc (key tag : α → Int) (a : α) (l : List α)
    (h1 : l.Pairwise (fun x y => key x = key y → tag y ≤ tag x))
    (h2 : ∀ b ∈ l, tag b ≤ tag a) :
    (insertDesc key a l).Pairwise (fun x y => key x = key y → tag y ≤ tag x) := by
  induction l with
  | nil => simp [insertDesc]
  | cons b bs ih =>
    rw [List.pairwise_cons] at h1
    simp only [insertDesc]
    split
    · rename_i hlt
      rw [List.pairwise_cons]
      refine ⟨fun c hc hkey => ?_, ih h1.2 (fun x hx => h2 x (List.mem_cons_of_mem b hx))⟩
      rcases (mem_insertDesc key a c bs).mp hc with rfl | hc
      · omega
      · exact h1.1 c hc hkey
    · rw [List.pairwise_cons]
      refine ⟨fun c hc _ => h2 c hc, by rw [List.pairwise_cons]; exact h1⟩

theorem pairwise_tag_sortDesc (key tag : α → Int) (l : List α)
    (h : l.Pairwise (fun x y => tag y ≤ tag x)) :
    (sortDesc key l).Pairwise (fun x y => key x = key y → tag y ≤ tag x) := by
  induction l with
  | nil => simp [sortDesc]
  | cons a as ih =>
    rw [List.pairwise_cons] at h
    refine pairwise_tag_insertDesc key tag a _ (ih h.2) (fun b hb => ?_)
    exact h.1 b ((mem_sortDesc key b as).mp hb)

theorem map_insertDesc (key : β → Int) (g : α → β) (a : α) (l : List α) :
    (insertDesc (fun x => key (g x)) a l).map g = insertDesc key (g a) (l.map g) := by
  induction l with
  | nil => simp [insertDesc]
  | cons b bs ih =>
    simp only [insertDesc, List.map_cons]
    split
    · simp [ih]
    · simp

theorem map_sortDesc (key : β → Int) (g : α → β) (l : List α) :
    (sortDesc (fun x => key (g x)) l).map g = sortDesc key (l.map g) := by
  induction l with
  | nil => simp [sortDesc]
  | cons a as ih => simp only [sortDesc, List.map_cons, map_insertDesc, ih]

/-- The list a single detector contributes to the engine loop:
`detectAll` when the detector implements it, otherwise the single
`detect` result (paper.ts lines 188-200). -/
def detectorRun (d : ResourceDetector) (s : String) : List DetectionResult :=
  match d.detectAll with
  | some f => f s
  | none => (d.detect s).toList

/-- Registered detectors sorted by priority, highest first
(DetectionEngine.getSortedDetectors). -/
def getSortedDetectors (ds : List ResourceDetector) : List ResourceDetector :=
  sortDesc (fun d => d.priority) ds

/-- DetectionEngine.detectAll: collect in priority order, stable-sort by
confidence score descending, filter below the configured minimum
confidence, and truncate to `maxSuggestions`. -/
def engineDetectAll (ds : List ResourceDetector) (cfg : DetectionEngineConfig)
    (input : String) : List DetectionResult :=
  if jsTrim input = "" then [] else
    (((sortDesc (fun r => (CONFIDENCE_SCORES r.confidence : Int))
        ((getSortedDetectors ds).flatMap (fun d => detectorRun d (jsTrim input)))).filter
      (fun r => CONFIDENCE_SCORES cfg.minConfidence ≤ CONFIDENCE_SCORES r.confidence)).take
      cfg.maxSuggestions)

/-- DetectionEngine.detect: null on blank input, else the head of the
ranked `detectAll` list. -/
def engineDetect (ds : List ResourceDetector) (cfg : DetectionEngineConfig)
    (input : String) : Option DetectionResult :=
  if jsTrim input = "" then none else (engineDetectAll ds cfg input).head?

/-- The same pipeline as `engineDetectAll`, but with every result tagged
with the priority of the detector that contributed it; used to state the
stable tie-break property. -/
def engineDetectAllTagged (ds : List ResourceDetector) (cfg : DetectionEngineConfig)
    (input : String) : List (Int × DetectionResult) :=
  if jsTrim input = "" then [] else
    (((sortDesc (fun r => (CONFIDENCE_SCORES r.2.confidence : Int))
        ((getSortedDetectors ds).flatMap
          (fun d => (detectorRun d (jsTrim input)).map (fun r => (d.priority, r))))).filter
      (fun r => CONFIDENCE_SCORES cfg.minConfidence ≤ CONFIDENCE_SCORES r.2.confidence)).take
      cfg.maxSuggestions)

theorem filter_comp_map (g : α → β) (p : β → Bool) (l : List α) :
    (l.filter (fun x => p (g x))).map g = (l.map g).filter p := by
  induction l with
  | nil => simp
  | cons a as ih =>
    simp only [List.filter, List.map_cons]
    cases h : p (g a) <;> simp [h, ih]

theorem engineDetectAll_eq_tagged (ds : List ResourceDetector)
    (cfg : DetectionEngineConfig) (input : String) :
    engineDetectAll ds cfg input = (engineDetectAllTagged ds cfg input).map Prod.snd := by
  unfold engineDetectAll engineDetectAllTagged
  split
  · simp
  · have hfm : ((getSortedDetectors ds).flatMap
        (fun d => (detectorRun d (jsTrim input)).map (fun r => (d.priority, r)))).map Prod.snd
        = (getSortedDetectors ds).flatMap (fun d => detectorRun d (jsTrim input)) := by
      induction getSortedDetectors ds with
      | nil => simp
      | cons d rest ih => simp [List.flatMap_cons, ih, List.map_map, Function.comp]
    have hsort : (sortDesc (fun r => (CONFIDENCE_SCORES r.2.confidence : Int))
          ((getSortedDetectors ds).flatMap
            (fun d => (detectorRun d (jsTrim input)).map (fun r => (d.priority, r))))).map Prod.snd
        = sortDesc (fun r => (CONFIDENCE_SCORES r.confidence : Int))
          ((getSortedDetectors ds).flatMap (fun d => detectorRun d (jsTrim input))) :=
      (map_sortDesc (fun (r : DetectionResult) => (CONFIDENCE_SCORES r.confidence : Int))
        Prod.snd _).trans
        (congrArg (sortDesc (fun (r : DetectionResult) =>
          (CONFIDENCE_SCORES r.confidence : Int))) hfm)
    have hfil : ((sortDesc (fun r => (CONFIDENCE_SCORES r.2.confidence : Int))
          ((getSortedDetectors ds).flatMap
            (fun d => (detectorRun d (jsTrim input)).map (fun r => (d.priority, r))))).filter
          (fun r => CONFIDENCE_SCORES cfg.minConfidence ≤ CONFIDENCE_SCORES r.2.confidence)).map
            Prod.snd
        = ((sortDesc (fun r => (CONFIDENCE_SCORES r.confidence : Int))
          ((getSortedDetectors ds).flatMap (fun d => detectorRun d (jsTrim input)))).filter
          (fun r => CONFIDENCE_SCORES cfg.minConfidence ≤ CONFIDENCE_SCORES r.confidence)) :=
      (filter_comp_map Prod.snd
        (fun (r : DetectionResult) =>
          decide (CONFIDENCE_SCORES cfg.minConfidence ≤ CONFIDENCE_SCORES r.confidence)) _).trans
        (congrArg (List.filter (fun (r : DetectionResult) =>
          decide (CONFIDENCE_SCORES cfg.minConfidence ≤ CONFIDENCE_SCORES r.confidence))) hsort)
    rw [List.map_take, hfil]

theorem confidence_eq_of_scores_eq (a b : DetectionConfidence)
    (h : CONFIDENCE_SCORES a = CONFIDENCE_SCORES b) : a = b := by
  revert h
  cases a <;> cases b <;> decide

theorem pairwise_tags_flatMap (ds : List ResourceDetector) (s : String)
    (h : ds.Pairwise (fun d e => e.priority ≤ d.priority)) :
    (ds.flatMap (fun d => (detectorRun d s).map (fun r => (d.priority, r)))).Pairwise
      (fun x y => y.1 ≤ x.1) := by
  induction ds with
  | nil => simp
  | cons d rest ih =>
    rw [List.pairwise_cons] at h
    rw [List.flatMap_cons, List.pairwise_append]
    refine ⟨?_, ih h.2, ?_⟩
    · apply List.pairwise_map.mpr
      have hconst : ∀ (l : List DetectionResult),
          List.Pairwise (fun (_ _ : DetectionResult) => d.priority ≤ d.priority) l := by
        intro l
        induction l with
        | nil => exact List.Pairwise.nil
        | cons x xs ihx => exact List.Pairwise.cons (fun _ _ => le_refl _) ihx
      exact hconst _
    · intro a ha b hb
      rcases List.mem_map.mp ha with ⟨r, _, rfl⟩
      rcases List.mem_flatMap.mp hb with ⟨e, he, hbmem⟩
      rcases List.mem_map.mp hbmem with ⟨r2, _, rfl⟩
      exact h.1 e he

/-- A minimal detection result used to exercise the engine theorems on
concrete registries. -/
def wRes (c : DetectionConfidence) : DetectionResult :=
  { pluginId := "w", displayName := "W", confidence := c, inputType := .title }

/-- A concrete detector contributing two results through `detectAll`. -/
def wDetTwo : ResourceDetector :=
  { id := "w2", priority := 5, detect := fun _ => none,
    detectAll := some (fun _ => [wRes .low, wRes .high]) }

/-- A concrete priority-5 detector contributing one high-confidence result. -/
def wDetP5 : ResourceDetector :=
  { id := "p5", priority := 5, detect := fun _ => some (wRes .high), detectAll := none }

/-- A concrete priority-3 detector contributing one high-confidence result. -/
def wDetP3 : ResourceDetector :=
  { id := "p3", priority := 3, detect := fun _ => some (wRes .high), detectAll := none }

/-- C1: for every input string and every registry state, the list returned
by DetectionEngine.detectAll is sorted by numeric confidence score in
non-increasing order: for indices i < j, the score at i is at least the
score at j. -/
theorem claim1_detectAll_sorted_by_confidence (ds : List ResourceDetector)
    (cfg : DetectionEngineConfig) (input : String)
    (i j : Fin (engineDetectAll ds cfg input).length) (hij : i < j) :
    CONFIDENCE_SCORES ((engineDetectAll ds cfg input).get j).confidence ≤
      CONFIDENCE_SCORES ((engineDetectAll ds cfg input).get i).confidence := by
  have hp : (engineDetectAll ds cfg input).Pairwise
      (fun x y => CONFIDENCE_SCORES y.confidence ≤ CONFIDENCE_SCORES x.confidence) := by
    unfold engineDetectAll
    split
    · simp
    · refine List.Pairwise.sublist (List.take_sublist _ _) ?_
      refine List.Pairwise.sublist (List.filter_sublist _) ?_
      refine (pairwise_sortDesc
        (fun (r : DetectionResult) => (CONFIDENCE_SCORES r.confidence : Int)) _).imp ?_
      intro x y hxy
      exact_mod_cast hxy
  exact List.pairwise_iff_get.mp hp i j hij

/-- Witness for C1 on a concrete registry producing two results. -/
theorem claim1_witness :
    CONFIDENCE_SCORES (((engineDetectAll [wDetTwo] DEFAULT_CONFIG "x").get
        ⟨1, by decide⟩).confidence) ≤
      CONFIDENCE_SCORES (((engineDetectAll [wDetTwo] DEFAULT_CONFIG "x").get
        ⟨0, by decide⟩).confidence) :=
  claim1_detectAll_sorted_by_confidence [wDetTwo] DEFAULT_CONFIG "x"
    ⟨0, by decide⟩ ⟨1, by decide⟩ (by decide)

/-- C4: for every input whose trim is non-empty and every registry state,
DetectionEngine.detect equals the head of DetectionEngine.detectAll (the
first element when the list is non-empty, null when it is empty). -/
theorem claim4_detect_head_of_detectAll (ds : List ResourceDetector)
    (cfg : DetectionEngineConfig) (input : String) (h : jsTrim input ≠ "") :
    engineDetect ds cfg input = (engineDetectAll ds cfg input).head? := by
  unfold engineDetect
  rw [if_neg h]

/-- Witness for C4 at a concrete non-blank input. -/
theorem claim4_witness :
    engineDetect [] DEFAULT_CONFIG "a" = (engineDetectAll [] DEFAULT_CONFIG "a").head? :=
  claim4_detect_head_of_detectAll [] DEFAULT_CONFIG "a" (by decide)

/-- C5: no element of the detectAll output scores strictly below the
configured minimum confidence. -/
theorem claim5_min_confidence_threshold (ds : List ResourceDetector)
    (cfg : DetectionEngineConfig) (input : String) (r : DetectionResult)
    (hr : r ∈ engineDetectAll ds cfg input) :
    CONFIDENCE_SCORES cfg.minConfidence ≤ CONFIDENCE_SCORES r.confidence := by
  unfold engineDetectAll at hr
  split at hr
  · simp at hr
  · have hr2 := (List.take_sublist _ _).subset hr
    have hr3 := List.mem_filter.mp hr2
    simpa using hr3.2

/-- Witness for C5 on a concrete registry. -/
theorem claim5_witness :
    CONFIDENCE_SCORES DEFAULT_CONFIG.minConfidence ≤
      CONFIDENCE_SCORES (wRes .high).confidence :=
  claim5_min_confidence_threshold [wDetTwo] DEFAULT_CONFIG "x" (wRes .high) (by decide)

/-- C6: the detectAll output never exceeds the configured maximum number
of suggestions. -/
theorem claim6_max_suggestions_cap (ds : List ResourceDetector)
    (cfg : DetectionEngineConfig) (input : String) :
    (engineDetectAll ds cfg input).length ≤ cfg.maxSuggestions := by
  unfold engineDetectAll
  split
  · simp
  · rw [List.length_take]
    exact Nat.min_le_left _ _

/-- C7: on input that is empty or consists only of whitespace, detect
returns null and detectAll returns the empty list, for every registry
(so no registered detector can influence the result). -/
theorem claim7_empty_input (ds : List ResourceDetector) (cfg : DetectionEngineConfig)
    (input : String) (h : ∀ c ∈ input.data, isJsWs c = true) :
    engineDetect ds cfg input = none ∧ engineDetectAll ds cfg input = [] := by
  have h1 : input.data.dropWhile isJsWs = [] := by
    rw [List.dropWhile_eq_nil_iff]
    exact h
  have htrim : jsTrim input = "" := by
    unfold jsTrim trimCh
    rw [h1]
    rfl
  unfold engineDetect engineDetectAll
  rw [if_pos htrim, if_pos htrim]
  exact ⟨rfl, rfl⟩

/-- Witness for C7 at a whitespace-only input. -/
theorem claim7_witness :
    engineDetect [wDetTwo] DEFAULT_CONFIG "   " = none ∧
      engineDetectAll [wDetTwo] DEFAULT_CONFIG "   " = [] :=
  claim7_empty_input [wDetTwo] DEFAULT_CONFIG "   " (by decide)

/-- C8: detectAll equals the priority-tagged pipeline with the tags
dropped, and in the tagged output two results of equal confidence keep
the priority-descending collection order: at indices i < j with equal
confidence, the priority of the earlier contributing detector is at
least that of the later one (so a strictly-higher-priority contribution
appears first). -/
theorem claim8_priority_tiebreak (ds : List ResourceDetector)
    (cfg : DetectionEngineConfig) (input : String) :
    engineDetectAll ds cfg input = (engineDetectAllTagged ds cfg input).map Prod.snd ∧
    ∀ (i j : Fin (engineDetectAllTagged ds cfg input).length), i < j →
      ((engineDetectAllTagged ds cfg input).get i).2.confidence =
        ((engineDetectAllTagged ds cfg input).get j).2.confidence →
      ((engineDetectAllTagged ds cfg input).get j).1 ≤
        ((engineDetectAllTagged ds cfg input).get i).1 := by
  refine ⟨engineDetectAll_eq_tagged ds cfg input, ?_⟩
  have hp : (engineDetectAllTagged ds cfg input).Pairwise
      (fun x y => x.2.confidence = y.2.confidence → y.1 ≤ x.1) := by
    unfold engineDetectAllTagged
    split
    · simp
    · refine List.Pairwise.sublist (List.take_sublist _ _) ?_
      refine List.Pairwise.sublist (List.filter_sublist _) ?_
      have hmono := pairwise_tags_flatMap (getSortedDetectors ds) (jsTrim input)
        (pairwise_sortDesc (fun d => d.priority) ds)
      refine (pairwise_tag_sortDesc
        (fun (r : Int × DetectionResult) => (CONFIDENCE_SCORES r.2.confidence : Int))
        (fun (r : Int × DetectionResult) => r.1) _ hmono).imp ?_
      intro x y hxy hconf
      exact hxy (by rw [hconf])
  intro i j hij hconf
  exact List.pairwise_iff_get.mp hp i j hij hconf

/-- Witness for C8 on two concrete detectors of priorities 5 and 3 that
both produce a high-confidence result. -/
theorem claim8_witness :
    ((engineDetectAllTagged [wDetP5, wDetP3] DEFAULT_CONFIG "x").get ⟨1, by decide⟩).1 ≤
      ((engineDetectAllTagged [wDetP5, wDetP3] DEFAULT_CONFIG "x").get ⟨0, by decide⟩).1 :=
  (claim8_priority_tiebreak [wDetP5, wDetP3] DEFAULT_CONFIG "x").2
    ⟨0, by decide⟩ ⟨1, by decide⟩ (by decide) (by decide)

/-- The ten decimal digit characters. -/
def digitChars : List Char := "0123456789".data

/-- Decimal digit test (`\d`). -/
def isDigitCh (c : Char) : Bool := decide (c ∈ digitChars)

/-- Numeric value of a digit character (`parseInt` on a single digit). -/
def digitVal (c : Char) : Nat := c.toNat - 48

/-- ASCII letter test (`[a-zA-Z]`). -/
def isAsciiLetter (c : Char) : Bool :=
  ('a' ≤ c && c ≤ 'z') || ('A' ≤ c && c ≤ 'Z')

/-- ASCII alphanumeric test (`[a-zA-Z0-9]`). -/
def isAsciiAlphanum (c : Char) : Bool := isAsciiLetter c || isDigitCh c

/-- The identifier character class `[a-zA-Z0-9_-]` used by the URL
patterns. -/
def isIdChar (c : Char) : Bool := isAsciiAlphanum c || c = '_' || c = '-'

/-- ASCII lower-casing of one character, the fragment of
`String.prototype.toLowerCase` exercised by the detectors. -/
def asciiLowerChar (c : Char) : Char :=
  if 'A' ≤ c && c ≤ 'Z' then Char.ofNat (c.toNat + 32) else c

/-- ASCII upper-casing of one character (`toUpperCase` on the ISBN-10
check digit). -/
def asciiUpperChar (c : Char) : Char :=
  if 'a' ≤ c && c ≤ 'z' then Char.ofNat (c.toNat - 32) else c

/-- Line terminators, the characters the regexp `.` does not match. -/
def isLineTerm (c : Char) : Bool :=
  c = '\n' || c = '\r' || c = Char.ofNat 0x2028 || c = Char.ofNat 0x2029

/-- Model of `String.prototype.split(/\s+/)` on character lists: runs of
whitespace separate the pieces, a leading or trailing separator run
contributes an empty piece, and the empty string splits into one empty
piece. -/
def splitWsCh : List Char → List (List Char)
  | [] => [[]]
  | c :: cs =>
    if isJsWs c then
      (match cs with
       | c2 :: _ => if isJsWs c2 then splitWsCh cs else [] :: splitWsCh cs
       | [] => [] :: splitWsCh cs)
    else
      (match splitWsCh cs with
       | w :: ws => (c :: w) :: ws
       | [] => [[c]])

/-- Per-position attempt of an alternation of literal fragments followed
by a captured run of characters in the class `cls` (greedy `+`). -/
def tryAltsClass (cls : Char → Bool) (alts : List (List Char)) (s : List Char) :
    Option (List Char) :=
  alts.findSome? fun lit =>
    if lit.isPrefixOf s then
      let cap := (s.drop lit.length).takeWhile cls
      if cap.isEmpty then none else some cap
    else none

/-- Leftmost match of `(?:lit1|lit2|...)` followed by a captured
`cls+` run, modelling an unanchored regexp search. -/
def scanClass (cls : Char → Bool) (alts : List (List Char)) : List Char → Option (List Char)
  | [] => tryAltsClass cls alts []
  | c :: cs => (tryAltsClass cls alts (c :: cs)).orElse fun _ => scanClass cls alts cs

/-- Per-position attempt of an alternation of literal fragments followed
by a capture of exactly `n` identifier characters. -/
def tryAltsExact (alts : List (List Char)) (n : Nat) (s : List Char) :
    Option (List Char) :=
  alts.findSome? fun lit =>
    if lit.isPrefixOf s then
      let cap := (s.drop lit.length).take n
      if cap.length = n && cap.all isIdChar then some cap else none
    else none

/-- Leftmost match of `(?:lit1|lit2|...)` followed by a capture of
exactly `n` identifier characters (`{n}`). -/
def scanExact (alts : List (List Char)) (n : Nat) : List Char → Option (List Char)
  | [] => tryAltsExact alts n []
  | c :: cs => (tryAltsExact alts n (c :: cs)).orElse fun _ => scanExact alts n cs

/-- Per-position attempt of an alternation of literal fragments followed
by `(.+)$`: the capture is the whole remainder, which must be non-empty
and contain no line terminator. -/
def tryAltsToEnd (alts : List (List Char)) (s : List Char) : Option (List Char) :=
  alts.findSome? fun lit =>
    if lit.isPrefixOf s then
      let rest := s.drop lit.length
      if rest.isEmpty || rest.any isLineTerm then none else some rest
    else none

/-- Leftmost match of `(?:lit1|lit2|...)(.+)$`. -/
def scanToEnd (alts : List (List Char)) : List Char → Option (List Char)
  | [] => tryAltsToEnd alts []
  | c :: cs => (tryAltsToEnd alts (c :: cs)).orElse fun _ => scanToEnd alts cs

theorem containsSub_mem (needle hay : List Char) (hc : containsSub needle hay = true)
    (c : Char) (hm : c ∈ needle) : c ∈ hay := by
  induction hay with
  | nil =>
    simp only [containsSub, decide_eq_true_eq] at hc
    subst hc
    simp at hm
  | cons b bs ih =>
    simp only [containsSub, Bool.or_eq_true] at hc
    rcases hc with hp | hrec
    · have hpre : needle <+: (b :: bs) := by
        rwa [← List.isPrefixOf_iff_prefix]
      exact hpre.sublist.subset hm
    · exact List.mem_cons_of_mem b (ih hrec)

theorem containsSub_of_prefix (small big hay : List Char) (hpre : small <+: big)
    (hc : containsSub big hay = true) : containsSub small hay = true := by
  induction hay with
  | nil =>
    simp only [containsSub, decide_eq_true_eq] at hc ⊢
    subst hc
    exact List.prefix_nil.mp hpre
  | cons b bs ih =>
    simp only [containsSub, Bool.or_eq_true] at hc ⊢
    rcases hc with hp | hrec
    · left
      rw [List.isPrefixOf_iff_prefix] at hp ⊢
      exact hpre.trans hp
    · right
      exact ih hrec

theorem scanClass_some_contains (cls : Char → Bool) (alts : List (List Char))
    (s v : List Char) (h : scanClass cls alts s = some v) :
    ∃ lit ∈ alts, containsSub lit s = true := by
  induction s with
  | nil =>
    simp only [scanClass, tryAltsClass] at h
    rcases List.exists_of_findSome?_eq_some h with ⟨lit, hlit, heq⟩
    refine ⟨lit, hlit, ?_⟩
    simp only [containsSub, decide_eq_true_eq]
    by_cases hp : lit.isPrefixOf []
    · have := List.isPrefixOf_iff_prefix.mp hp
      exact List.prefix_nil.mp this
    · rw [if_neg hp] at heq
      exact absurd heq (by simp)
  | cons c cs ih =>
    simp only [scanClass] at h
    rcases ho : tryAltsClass cls alts (c :: cs) with _ | w
    · rw [ho] at h
      simp only [Option.orElse] at h
      rcases ih h with ⟨lit, hlit, hcont⟩
      refine ⟨lit, hlit, ?_⟩
      simp only [containsSub, Bool.or_eq_true]
      right
      exact hcont
    · rw [ho] at h
      simp only [Option.orElse] at h
      rcases List.exists_of_findSome?_eq_some ho with ⟨lit, hlit, heq⟩
      refine ⟨lit, hlit, ?_⟩
      simp only [containsSub, Bool.or_eq_true]
      left
      by_cases hp : lit.isPrefixOf (c :: cs)
      · exact hp
      · rw [if_neg hp] at heq
        exact absurd heq (by simp)

/-- Tail of the anchored DOI pattern `^10\.\d{4,}(?:\.\d+)*\/[^\s]+$`:
consumes the `(?:\.\d+)*` groups, then requires `/` followed by at least
one non-whitespace character up to the end. -/
def doiGroups (l : List Char) : Bool :=
  match l with
  | '.' :: rest =>
    let digs := rest.takeWhile isDigitCh
    if digs.isEmpty then false
    else doiGroups (rest.dropWhile isDigitCh)
  | '/' :: rest => !rest.isEmpty && rest.all (fun c => !isJsWs c)
  | _ => false
  termination_by l.length
  decreasing_by
    have := (List.dropWhile_sublist (l := rest) isDigitCh).length_le
    simp
    omega

/-- The anchored DOI pattern `^10\.\d{4,}(?:\.\d+)*\/[^\s]+$`. -/
def doiTest (l : List Char) : Bool :=
  match l with
  | '1' :: '0' :: '.' :: rest =>
    let digs := rest.takeWhile isDigitCh
    if digs.length < 4 then false
    else doiGroups (rest.dropWhile isDigitCh)
  | _ => false

/-- Alternatives of the DOI-URL pattern `(?:doi\.org|dx\.doi\.org)\/(.+)$`. -/
def doiUrlAlts : List (List Char) := ["doi.org/".data, "dx.doi.org/".data]

/-- extractDoi (paper detector): the direct DOI pattern, then the
DOI-URL pattern. -/
def extractDoi (l : List Char) : Option (List Char) :=
  if doiTest l then some l else scanToEnd doiUrlAlts l

/-- A run of exactly 7 or 8 digits filling the rest of the string
(`(\d{7,8})$`). -/
def digits78 (l : List Char) : Bool :=
  (l.length = 7 || l.length = 8) && l.all isDigitCh

/-- The anchored PubMed-id pattern `^(?:PMID[:\s]?)?(\d{7,8})$` with the
case-insensitive flag. -/
def pmidDirect (l : List Char) : Option (List Char) :=
  match l with
  | p :: m :: i :: d :: rest =>
    if [p, m, i, d].map asciiLowerChar = "pmid".data then
      match rest with
      | c :: rest2 =>
        if (c = ':' || isJsWs c) && digits78 rest2 then some rest2
        else if digits78 rest then some rest else none
      | [] => none
    else if digits78 l then some l else none
  | _ => if digits78 l then some l else none

/-- Alternatives of the PubMed-URL pattern
`(?:pubmed\.ncbi\.nlm\.nih\.gov|ncbi\.nlm\.nih\.gov\/pubmed)\/(\d+)`. -/
def pubmedUrlAlts : List (List Char) :=
  ["pubmed.ncbi.nlm.nih.gov/".data, "ncbi.nlm.nih.gov/pubmed/".data]

/-- extractPmid (paper detector): direct pattern, then URL pattern. -/
def extractPmid (l : List Char) : Option (List Char) :=
  match pmidDirect l with
  | some v => some v
  | none => scanClass isDigitCh pubmedUrlAlts l

/-- Body of the anchored arXiv pattern `\d{4}\.\d{4,5}(?:v\d+)?$`. -/
def arxivBody (l : List Char) : Bool :=
  let d1 := l.takeWhile isDigitCh
  let r1 := l.dropWhile isDigitCh
  d1.length = 4 &&
    (match r1 with
     | '.' :: r2 =>
       let d2 := r2.takeWhile isDigitCh
       let r3 := r2.dropWhile isDigitCh
       (d2.length = 4 || d2.length = 5) &&
         (r3.isEmpty ||
           (match r3 with
            | v :: r4 => (v = 'v' || v = 'V') && !r4.isEmpty && r4.all isDigitCh
            | [] => false))
     | _ => false)

/-- The anchored arXiv pattern `^(?:arXiv:)?(\d{4}\.\d{4,5}(?:v\d+)?)$`
with the case-insensitive flag; the capture omits the prefix. -/
def arxivDirect (l : List Char) : Option (List Char) :=
  if (l.take 6).map asciiLowerChar = "arxiv:".data then
    (if arxivBody (l.drop 6) then some (l.drop 6) else none)
  else if arxivBody l then some l else none

/-- Unanchored capture `(\d{4}\.\d{4,5}(?:v\d+)?)` after an arXiv-URL
literal: four digits, a dot, a greedy run of four or five digits, and an
optional greedy `v\d+` suffix. -/
def arxivUrlCap (rest : List Char) : Option (List Char) :=
  let d4 := rest.take 4
  if d4.length = 4 && d4.all isDigitCh then
    match rest.drop 4 with
    | '.' :: r2 =>
      let run := r2.takeWhile isDigitCh
      if run.length < 4 then none
      else
        let m := if 5 ≤ run.length then 5 else 4
        let frac := r2.take m
        let r3 := r2.drop m
        let vpart :=
          match r3 with
          | v :: r4 =>
            if v = 'v' then
              (let ds := r4.takeWhile isDigitCh
               if ds.isEmpty then [] else v :: ds)
            else []
          | [] => []
        some (d4 ++ '.' :: (frac ++ vpart))
    | _ => none
  else none

/-- Per-position attempt of an alternation of literals followed by a
custom capture function. -/
def tryAltsWith (cap : List Char → Option (List Char)) (alts : List (List Char))
    (s : List Char) : Option (List Char) :=
  alts.findSome? fun lit => if lit.isPrefixOf s then cap (s.drop lit.length) else none

/-- Leftmost match of `(?:lit1|lit2|...)` followed by a custom capture. -/
def scanWith (cap : List Char → Option (List Char)) (alts : List (List Char)) :
    List Char → Option (List Char)
  | [] => tryAltsWith cap alts []
  | c :: cs => (tryAltsWith cap alts (c :: cs)).orElse fun _ => scanWith cap alts cs

/-- extractArxivId (paper detector): direct pattern, then
`arxiv\.org\/(?:abs|pdf)\/(...)`. -/
def extractArxivId (l : List Char) : Option (List Char) :=
  match arxivDirect l with
  | some v => some v
  | none => scanWith arxivUrlCap ["arxiv.org/abs/".data, "arxiv.org/pdf/".data] l

/-- ACADEMIC_DOMAINS (paper detector). -/
def ACADEMIC_DOMAINS : List String :=
  ["doi.org", "dx.doi.org", "pubmed.", "ncbi.nlm.nih.gov", "arxiv.org",
   "researchgate.net", "academia.edu", "sciencedirect.com", "springer.com",
   "wiley.com", "nature.com", "science.org", "cell.com", "tandfonline.com",
   "sagepub.com", "oup.com", "bmj.com", "thelancet.com", "nejm.org"]

/-- isAcademicUrl (paper detector): case-insensitive domain containment. -/
def isAcademicUrl (l : List Char) : Bool :=
  ACADEMIC_DOMAINS.any fun d => containsSub d.data (l.map asciiLowerChar)

/-- paperKeywords (paper detector heuristic). -/
def paperKeywords : List String :=
  ["study", "analysis", "research", "investigation", "review",
   "systematic", "meta-analysis", "clinical", "trial", "randomized",
   "efficacy", "effect", "treatment", "patient", "case",
   "comparison", "evaluation", "assessment", "outcomes",
   "in vitro", "in vivo", "prospective", "retrospective",
   "cohort", "longitudinal", "cross-sectional",
   "dental", "oral", "periodontal", "endodontic", "orthodontic",
   "implant", "restoration", "caries", "pulp", "root canal"]

/-- One position of the case-insensitive `et\s+al\.?` test, on an
already lower-cased string. -/
def etAlHere : List Char → Bool
  | 'e' :: 't' :: rest =>
    !(rest.takeWhile isJsWs).isEmpty &&
      (match rest.dropWhile isJsWs with
       | 'a' :: 'l' :: _ => true
       | _ => false)
  | _ => false

/-- Unanchored search for `et\s+al` on a lower-cased string. -/
def etAlScan : List Char → Bool
  | [] => false
  | c :: cs => etAlHere (c :: cs) || etAlScan cs

/-- getPaperTitleScore (paper detector heuristic, capped at 75). -/
def getPaperTitleScore (input : List Char) : Nat :=
  let trimmed := trimCh input
  let wordCount := (splitWsCh trimmed).length
  let lowerInput := trimmed.map asciiLowerChar
  let keywordMatches := (paperKeywords.filter fun kw => containsSub kw.data lowerInput).length
  let score := 15
    + (if 5 ≤ wordCount ∧ wordCount ≤ 20 then 15 else 0)
    + (if 8 ≤ wordCount ∧ wordCount ≤ 15 then 10 else 0)
    + min (keywordMatches * 10) 30
    + (if containsSub [':'] trimmed then 10 else 0)
    + (if etAlScan lowerInput then 20 else 0)
  min score 75

/-- paperDetector.detect (part_003 lines 171-252). -/
def paperDetect (input : String) : Option DetectionResult :=
  match extractDoi input.data with
  | some doi => some
    { pluginId := "paper", displayName := "Research Paper (DOI)", confidence := .definite,
      inputType := if containsSub "://".data input.data then .url else .identifier,
      context := some { extractedId := some ⟨doi⟩, matchedPattern := some "doi" } }
  | none =>
  match extractPmid input.data with
  | some pmid => some
    { pluginId := "paper", displayName := "Research Paper (PubMed)", confidence := .definite,
      inputType := if containsSub "://".data input.data then .url else .identifier,
      context := some { extractedId := some ⟨pmid⟩, matchedPattern := some "pmid" } }
  | none =>
  match extractArxivId input.data with
  | some aid => some
    { pluginId := "paper", displayName := "Research Paper (arXiv)", confidence := .definite,
      inputType := if containsSub "://".data input.data then .url else .identifier,
      context := some { extractedId := some ⟨aid⟩, matchedPattern := some "arxiv" } }
  | none =>
  if isAcademicUrl input.data then
    some { pluginId := "paper", displayName := "Research Paper", confidence := .high,
           inputType := .url, context := some { matchedPattern := some "academic-url" } }
  else
    if 10 ≤ (trimCh input.data).length ∧ containsSub "://".data (trimCh input.data) = false then
      (if 35 ≤ getPaperTitleScore (trimCh input.data) then
        some { pluginId := "paper", displayName := "Search Papers",
               confidence := if 55 ≤ getPaperTitleScore (trimCh input.data)
                 then .medium else .low,
               inputType := .searchQuery,
               context := some
                 { metadata := [("titleScore", .num (getPaperTitleScore (trimCh input.data)))] } }
      else none)
    else none

/-- paperDetector.detectAll (part_003 lines 254-313): every structured
match, the academic-URL candidate when no structured match fired, and an
unconditionally low-confidence search suggestion when nothing else did. -/
def paperDetectAll (input : String) : List DetectionResult :=
  let doi := extractDoi input.data
  let pmid := extractPmid input.data
  let arxivId := extractArxivId input.data
  let l1 : List DetectionResult :=
    match doi with
    | some v =>
      [{ pluginId := "paper", displayName := "Research Paper (DOI)",
         confidence := .definite, inputType := .identifier,
         context := some { extractedId := some ⟨v⟩, matchedPattern := some "doi" } }]
    | none => []
  let l2 : List DetectionResult :=
    match pmid with
    | some v =>
      [{ pluginId := "paper", displayName := "Research Paper (PubMed)",
         confidence := .definite, inputType := .identifier,
         context := some { extractedId := some ⟨v⟩, matchedPattern := some "pmid" } }]
    | none => []
  let l3 : List DetectionResult :=
    match arxivId with
    | some v =>
      [{ pluginId := "paper", displayName := "Research Paper (arXiv)",
         confidence := .definite, inputType := .identifier,
         context := some { extractedId := some ⟨v⟩, matchedPattern := some "arxiv" } }]
    | none => []
  let l4 : List DetectionResult :=
    if isAcademicUrl input.data ∧ doi = none ∧ pmid = none ∧ arxivId = none then
      [{ pluginId := "paper", displayName := "Research Paper",
         confidence := .high, inputType := .url }]
    else []
  let results := l1 ++ l2 ++ l3 ++ l4
  let l5 : List DetectionResult :=
    if 10 ≤ (trimCh input.data).length ∧
        containsSub "://".data (trimCh input.data) = false ∧ results = [] then
      [{ pluginId := "paper", displayName := "Search Papers",
         confidence := .low, inputType := .searchQuery }]
    else []
  results ++ l5

/-- The paper detector record (part_003). -/
def paperDetector : ResourceDetector :=
  { id := "paper", priority := 80, detect := paperDetect, detectAll := some paperDetectAll }

/-- The unconditional low-confidence search suggestion produced by
paperDetector.detectAll. -/
def paperSearchSuggestion : DetectionResult :=
  { pluginId := "paper", displayName := "Search Papers",
    confidence := .low, inputType := .searchQuery }

/-- The heuristic search candidate produced by paperDetector.detect. -/
def paperSearchHeuristic (conf : DetectionConfidence) (n : Nat) : DetectionResult :=
  { pluginId := "paper", displayName := "Search Papers", confidence := conf,
    inputType := .searchQuery,
    context := some { metadata := [("titleScore", .num n)] } }

/-- C2 (amended): for every trimmed input of length at least 10 with no
`://` and no structured paper pattern, `detect` applies the heuristic
thresholds (score at least 55 gives medium, in [35,55) gives low, below
35 no candidate), while `detectAll` instead always pushes exactly one
low-confidence search suggestion regardless of the score. -/
theorem claim2_paper_heuristic (s : String)
    (htr : trimCh s.data = s.data)
    (hlen : 10 ≤ s.data.length)
    (hsep : containsSub "://".data s.data = false)
    (hdoi : extractDoi s.data = none)
    (hpmid : extractPmid s.data = none)
    (harx : extractArxivId s.data = none)
    (hacad : isAcademicUrl s.data = false) :
    paperDetectAll s = [paperSearchSuggestion] ∧
    (55 ≤ getPaperTitleScore s.data →
      paperDetect s = some (paperSearchHeuristic .medium (getPaperTitleScore s.data))) ∧
    (35 ≤ getPaperTitleScore s.data → getPaperTitleScore s.data < 55 →
      paperDetect s = some (paperSearchHeuristic .low (getPaperTitleScore s.data))) ∧
    (getPaperTitleScore s.data < 35 → paperDetect s = none) := by
  have hdet : paperDetect s =
      (if 35 ≤ getPaperTitleScore s.data then
        some (paperSearchHeuristic
          (if 55 ≤ getPaperTitleScore s.data then .medium else .low)
          (getPaperTitleScore s.data))
      else none) := by
    unfold paperDetect paperSearchHeuristic
    rw [hdoi, hpmid, harx]
    rw [if_neg (show ¬(isAcademicUrl s.data = true) by rw [hacad]; simp)]
    rw [htr]
    rw [if_pos
      (show 10 ≤ s.data.length ∧ containsSub "://".data s.data = false from ⟨hlen, hsep⟩)]
  refine ⟨?_, ?_, ?_, ?_⟩
  · have hlen2 : 10 ≤ s.length := hlen
    unfold paperDetectAll paperSearchSuggestion
    simp [hdoi, hpmid, harx, hacad, htr, hsep, hlen, hlen2]
  · intro h55
    rw [hdet, if_pos (by omega : 35 ≤ getPaperTitleScore s.data), if_pos h55]
  · intro h35 h55
    rw [hdet, if_pos h35, if_neg (by omega)]
  · intro h35
    rw [hdet, if_neg (by omega)]

/-- C2 counterexample: the input "abcdefghij" is a trimmed, 10-character
string without `://` matching no structured paper pattern, its heuristic
score is below 35, yet `detectAll` still returns a candidate — refuting
the claim that a score below 35 yields no candidate in the `detectAll`
output as well. -/
theorem claim2_counterexample :
    trimCh "abcdefghij".data = "abcdefghij".data ∧
    10 ≤ "abcdefghij".data.length ∧
    containsSub "://".data "abcdefghij".data = false ∧
    extractDoi "abcdefghij".data = none ∧
    extractPmid "abcdefghij".data = none ∧
    extractArxivId "abcdefghij".data = none ∧
    isAcademicUrl "abcdefghij".data = false ∧
    getPaperTitleScore "abcdefghij".data < 35 ∧
    paperDetectAll "abcdefghij" ≠ [] := by decide

/-- The heuristic scenario sentence from the specification. -/
def c2input : String :=
  "Randomized controlled trial of pulp capping materials in primary molars: a systematic review"

/-- Witness for C2 at a concrete medium-score input. -/
theorem claim2_witness :
    paperDetectAll c2input = [paperSearchSuggestion] ∧
    paperDetect c2input =
      some (paperSearchHeuristic .medium (getPaperTitleScore c2input.data)) :=
  ⟨(claim2_paper_heuristic c2input (by decide) (by decide) (by decide) (by decide)
      (by decide) (by decide) (by decide)).1,
   (claim2_paper_heuristic c2input (by decide) (by decide) (by decide) (by decide)
      (by decide) (by decide) (by decide)).2.1 (by decide)⟩

/-- cleanIsbn (book detector): strip dashes and whitespace. -/
def cleanIsbn (l : List Char) : List Char :=
  l.filter fun c => !(c = '-' || isJsWs c)

/-- The 978/979 prefix test of the strict ISBN-13 shape. -/
def isbn13Pre (l : List Char) : Bool :=
  l.take 3 = "978".data || l.take 3 = "979".data

/-- The strict ISBN-13 shape `^(978|979)\d{10}$`. -/
def isbn13Strict (l : List Char) : Bool :=
  isbn13Pre l && l.length == 13 && l.all isDigitCh

/-- The strict ISBN-10 shape `^\d{9}[\dXx]$`. -/
def isbn10Strict (l : List Char) : Bool :=
  l.length == 10 && (l.take 9).all isDigitCh &&
    (match l.getLast? with
     | some c => isDigitCh c || c = 'X' || c = 'x'
     | none => false)

/-- The weighted digit sum of validateIsbn13: position `i` (0-based)
carries weight 1 when even, 3 when odd. -/
def isbnSum (i : Nat) : List Char → Nat
  | [] => 0
  | c :: cs => digitVal c * (if i % 2 = 0 then 1 else 3) + isbnSum (i + 1) cs

/-- validateIsbn13 (book detector): mod-10 weighted check digit. -/
def validateIsbn13 (l : List Char) : Bool :=
  l.length == 13 &&
    ((10 - isbnSum 0 (l.take 12) % 10) % 10 == digitVal (l.getD 12 ' '))

/-- The weighted digit sum of validateIsbn10: position `i` carries
weight `10 - i`. -/
def isbn10Sum (i : Nat) : List Char → Nat
  | [] => 0
  | c :: cs => digitVal c * (10 - i) + isbn10Sum (i + 1) cs

/-- validateIsbn10 (book detector): mod-11 check with X worth 10. -/
def validateIsbn10 (l : List Char) : Bool :=
  l.length == 10 &&
    ((isbn10Sum 0 (l.take 9) +
      (if asciiUpperChar (l.getD 9 ' ') = 'X' then 10
       else digitVal (asciiUpperChar (l.getD 9 ' ')))) % 11 == 0)

/-- The two ISBN shapes the book detector distinguishes. -/
inductive IsbnType where
  | isbn13
  | isbn10
deriving DecidableEq, Repr

/-- The display name `Book (${type.toUpperCase()})`. -/
def isbnTypeLabel : IsbnType → String
  | .isbn13 => "Book (ISBN-13)"
  | .isbn10 => "Book (ISBN-10)"

/-- The matchedPattern string of an ISBN detection. -/
def isbnTypeName : IsbnType → String
  | .isbn13 => "isbn-13"
  | .isbn10 => "isbn-10"

/-- detectIsbn (book detector): clean, then try the 13-digit shape, then
the 10-digit shape, carrying the checksum verdict. -/
def detectIsbn (input : List Char) : Option (IsbnType × List Char × Bool) :=
  let cleaned := cleanIsbn input
  if isbn13Strict cleaned then some (.isbn13, cleaned, validateIsbn13 cleaned)
  else if isbn10Strict cleaned then some (.isbn10, cleaned, validateIsbn10 cleaned)
  else none

/-- detectGoogleBooksUrl (book detector):
`books\.google\.com\/books\?id=([a-zA-Z0-9_-]+)`. -/
def detectGoogleBooksUrl (l : List Char) : Option (List Char) :=
  scanClass isIdChar ["books.google.com/books?id=".data] l

/-- bookKeywords (book detector heuristic). -/
def bookKeywords : List String :=
  ["edition", "textbook", "handbook", "manual", "guide",
   "introduction", "principles", "fundamentals", "clinical",
   "anatomy", "physiology", "pathology", "surgery", "medicine",
   "dentistry", "dental", "orthodontics", "endodontics"]

/-- The quoted-title test `^["'].*["']$` (the dot does not match line
terminators). -/
def quotedTest : List Char → Bool
  | c :: cs =>
    (c = '"' || c = '\'') &&
      (match cs.getLast? with
       | some b => (b = '"' || b = '\'') && (cs.dropLast.all fun x => !isLineTerm x)
       | none => false)
  | [] => false

/-- The word-character class `\w` used by the `\b` boundary. -/
def isWordChar (c : Char) : Bool := isAsciiAlphanum c || c = '_'

/-- After a case-insensitive `by`: at least one whitespace character and
then a letter (`\s+[A-Z]` with the `i` flag). -/
def byTail (rest : List Char) : Bool :=
  !(rest.takeWhile isJsWs).isEmpty &&
    (match rest.dropWhile isJsWs with
     | a :: _ => isAsciiLetter a
     | [] => false)

/-- Unanchored search for `\bby\s+[A-Z]` with the `i` flag, tracking
whether the previous character was a word character. -/
def byScanGo (prevIsWord : Bool) : List Char → Bool
  | [] => false
  | c :: cs =>
    (!prevIsWord && (c = 'b' || c = 'B') &&
      (match cs with
       | y :: rest => (y = 'y' || y = 'Y') && byTail rest
       | [] => false)) || byScanGo (isWordChar c) cs

/-- The `by <Author>` authorship test. -/
def byScan (l : List Char) : Bool := byScanGo false l

/-- getBookTitleScore (book detector heuristic, capped at 80). -/
def getBookTitleScore (input : List Char) : Nat :=
  let trimmed := trimCh input
  let words := splitWsCh trimmed
  let wordCount := words.length
  let titleCaseWords := (words.filter fun w =>
    match w with
    | c :: _ => 'A' ≤ c && c ≤ 'Z'
    | [] => false).length
  let lowerInput := trimmed.map asciiLowerChar
  let score := 20
    + (if 2 ≤ wordCount ∧ wordCount ≤ 7 then 15 else 0)
    + (if 3 ≤ wordCount ∧ wordCount ≤ 5 then 10 else 0)
    + (if wordCount < 2 * titleCaseWords then 10 else 0)
    + (if bookKeywords.any (fun kw => containsSub kw.data lowerInput) then 15 else 0)
    + (if quotedTest trimmed then 20 else 0)
    + (if byScan trimmed then 15 else 0)
  min score 80

/-- bookDetector.detect (part_005 lines 151-208). -/
def bookDetect (input : String) : Option DetectionResult :=
  match detectIsbn input.data with
  | some r => some
    { pluginId := "book", displayName := isbnTypeLabel r.1,
      confidence := if r.2.2 then .definite else .high,
      inputType := .identifier,
      context := some { extractedId := some ⟨r.2.1⟩,
                        matchedPattern := some (isbnTypeName r.1),
                        metadata := [("isbnValid", .boolVal r.2.2)] } }
  | none =>
  match detectGoogleBooksUrl input.data with
  | some gid => some
    { pluginId := "book", displayName := "Book (Google Books)", confidence := .definite,
      inputType := .url,
      context := some { extractedId := some ⟨gid⟩,
                        matchedPattern := some "google-books-url" } }
  | none =>
    if 3 ≤ (trimCh input.data).length ∧ containsSub "://".data (trimCh input.data) = false then
      (if 35 ≤ getBookTitleScore (trimCh input.data) then
        some { pluginId := "book", displayName := "Search Books",
               confidence := if 60 ≤ getBookTitleScore (trimCh input.data)
                 then .medium else .low,
               inputType := .searchQuery,
               context := some
                 { metadata :=
                     [("titleScore", .num (getBookTitleScore (trimCh input.data)))] } }
      else none)
    else none

/-- bookDetector.detectAll (part_005 lines 210-254). -/
def bookDetectAll (input : String) : List DetectionResult :=
  let isbnResult := detectIsbn input.data
  let l1 : List DetectionResult :=
    match isbnResult with
    | some r =>
      [{ pluginId := "book", displayName := isbnTypeLabel r.1,
         confidence := if r.2.2 then .definite else .high,
         inputType := .identifier,
         context := some { extractedId := some ⟨r.2.1⟩,
                           matchedPattern := some (isbnTypeName r.1) } }]
    | none => []
  let l2 : List DetectionResult :=
    match detectGoogleBooksUrl input.data with
    | some gid =>
      [{ pluginId := "book", displayName := "Book (Google Books)",
         confidence := .definite, inputType := .url,
         context := some { extractedId := some ⟨gid⟩,
                           matchedPattern := some "google-books-url" } }]
    | none => []
  let l3 : List DetectionResult :=
    if 3 ≤ (trimCh input.data).length ∧
        containsSub "://".data (trimCh input.data) = false ∧ isbnResult = none then
      [{ pluginId := "book", displayName := "Search Books",
         confidence := .low, inputType := .searchQuery }]
    else []
  l1 ++ l2 ++ l3

/-- The book detector record (part_005). -/
def bookDetector : ResourceDetector :=
  { id := "book", priority := 60, detect := bookDetect, detectAll := some bookDetectAll }

theorem mem_digitChars (c : Char) (h : isDigitCh c = true) : c ∈ digitChars :=
  of_decide_eq_true h

theorem digitVal_lt_ten (c : Char) (h : isDigitCh c = true) : digitVal c < 10 := by
  have hall : ∀ x ∈ digitChars, digitVal x < 10 := by decide
  exact hall c (mem_digitChars c h)

theorem digitVal_inj (c d : Char) (hc : isDigitCh c = true) (hd : isDigitCh d = true)
    (h : digitVal c = digitVal d) : c = d := by
  have hall : ∀ x ∈ digitChars, ∀ y ∈ digitChars, digitVal x = digitVal y → x = y := by
    decide
  exact hall c (mem_digitChars c hc) d (mem_digitChars d hd) h

theorem digit_not_ws (c : Char) (h : isDigitCh c = true) : isJsWs c = false := by
  have hall : ∀ x ∈ digitChars, isJsWs x = false := by decide
  exact hall c (mem_digitChars c h)

theorem mem_of_mem_set (l : List Char) (k : Nat) (c x : Char) (hx : x ∈ l.set k c) :
    x = c ∨ x ∈ l := by
  induction l generalizing k with
  | nil => simp at hx
  | cons a as ih =>
    cases k with
    | zero =>
      rw [List.set_cons_zero] at hx
      rcases List.mem_cons.mp hx with rfl | h2
      · exact Or.inl rfl
      · exact Or.inr (List.mem_cons_of_mem a h2)
    | succ k2 =>
      rw [List.set_cons_succ] at hx
      rcases List.mem_cons.mp hx with rfl | h2
      · exact Or.inr (List.mem_cons_self _ _)
      · rcases ih k2 h2 with h3 | h3
        · exact Or.inl h3
        · exact Or.inr (List.mem_cons_of_mem a h3)

theorem getD_set_eq (l : List Char) (k : Nat) (c : Char) (hk : k < l.length) :
    (l.set k c).getD k ' ' = c := by
  induction l generalizing k with
  | nil => simp at hk
  | cons a as ih =>
    cases k with
    | zero => rfl
    | succ k2 =>
      rw [List.set_cons_succ, List.getD_cons_succ]
      exact ih k2 (by simpa using hk)

theorem getD_set_ne (l : List Char) (k j : Nat) (c : Char) (hne : k ≠ j) :
    (l.set k c).getD j ' ' = l.getD j ' ' := by
  induction l generalizing k j with
  | nil => simp [List.set]
  | cons a as ih =>
    cases k with
    | zero =>
      cases j with
      | zero => exact absurd rfl hne
      | succ j2 => rw [List.set_cons_zero, List.getD_cons_succ, List.getD_cons_succ]
    | succ k2 =>
      cases j with
      | zero => rw [List.set_cons_succ]; rfl
      | succ j2 =>
        rw [List.set_cons_succ, List.getD_cons_succ, List.getD_cons_succ]
        exact ih k2 j2 (by omega)

theorem take_set_lt (l : List Char) (k n : Nat) (c : Char) (hk : k < n) :
    (l.set k c).take n = (l.take n).set k c := by
  induction l generalizing k n with
  | nil => simp
  | cons a as ih =>
    cases k with
    | zero =>
      cases n with
      | zero => omega
      | succ m => simp [List.set_cons_zero, List.take_succ_cons]
    | succ k2 =>
      cases n with
      | zero => omega
      | succ m =>
        rw [List.set_cons_succ, List.take_succ_cons, List.take_succ_cons,
          List.set_cons_succ, ih k2 m (by omega)]

theorem take_set_ge (l : List Char) (k n : Nat) (c : Char) (hk : n ≤ k) :
    (l.set k c).take n = l.take n := by
  induction l generalizing k n with
  | nil => simp
  | cons a as ih =>
    cases n with
    | zero => simp
    | succ m =>
      cases k with
      | zero => omega
      | succ k2 =>
        rw [List.set_cons_succ, List.take_succ_cons, List.take_succ_cons,
          ih k2 m (by omega)]

theorem getD_mem (l : List Char) (k : Nat) (hk : k < l.length) : l.getD k ' ' ∈ l := by
  induction l generalizing k with
  | nil => simp at hk
  | cons a as ih =>
    cases k with
    | zero => exact List.mem_cons_self _ _
    | succ k2 =>
      rw [List.getD_cons_succ]
      exact List.mem_cons_of_mem a (ih k2 (by simpa using hk))

theorem getD_take (l : List Char) (k n : Nat) (hk : k < n) :
    (l.take n).getD k ' ' = l.getD k ' ' := by
  induction l generalizing k n with
  | nil => simp
  | cons a as ih =>
    cases n with
    | zero => omega
    | succ m =>
      cases k with
      | zero => rw [List.take_succ_cons]; rfl
      | succ k2 =>
        rw [List.take_succ_cons, List.getD_cons_succ, List.getD_cons_succ]
        exact ih k2 m (by omega)

theorem isbnSum_set (l : List Char) (i k : Nat) (c : Char) (hk : k < l.length) :
    isbnSum i (l.set k c) + digitVal (l.getD k ' ') * (if (i + k) % 2 = 0 then 1 else 3)
      = isbnSum i l + digitVal c * (if (i + k) % 2 = 0 then 1 else 3) := by
  induction l generalizing i k with
  | nil => simp at hk
  | cons a as ih =>
    cases k with
    | zero =>
      rw [List.set_cons_zero]
      simp only [isbnSum, List.getD_cons_zero, Nat.add_zero]
      ring
    | succ k2 =>
      rw [List.set_cons_succ, List.getD_cons_succ]
      simp only [isbnSum]
      have heq : i + (k2 + 1) = (i + 1) + k2 := by omega
      rw [heq]
      have hrec := ih (i + 1) k2 (by simpa using hk)
      linarith [hrec]

theorem validateIsbn13_iff (l : List Char) (h13 : l.length = 13) :
    validateIsbn13 l = true ↔
      (10 - isbnSum 0 (l.take 12) % 10) % 10 = digitVal (l.getD 12 ' ') := by
  unfold validateIsbn13
  simp [h13]

theorem validateIsbn13_set_false (l : List Char) (h13 : l.length = 13)
    (hdig : ∀ c ∈ l, isDigitCh c = true) (hv : validateIsbn13 l = true)
    (k : Nat) (hk : k < 13) (c : Char) (hc : isDigitCh c = true)
    (hne : c ≠ l.getD k ' ') :
    validateIsbn13 (l.set k c) = false := by
  have h13s : (l.set k c).length = 13 := by rw [List.length_set]; exact h13
  have hvv := (validateIsbn13_iff l h13).mp hv
  cases hx : validateIsbn13 (l.set k c) with
  | false => rfl
  | true =>
    exfalso
    have hvv2 := (validateIsbn13_iff _ h13s).mp hx
    have hdOld : isDigitCh (l.getD k ' ') = true := hdig _ (getD_mem l k (by omega))
    have hlt1 : digitVal (l.getD k ' ') < 10 := digitVal_lt_ten _ hdOld
    have hlt2 : digitVal c < 10 := digitVal_lt_ten c hc
    have hdne : digitVal c ≠ digitVal (l.getD k ' ') :=
      fun he => hne (digitVal_inj c _ hc hdOld he)
    by_cases hk12 : k < 12
    · have ht : (l.set k c).take 12 = (l.take 12).set k c := take_set_lt l k 12 c hk12
      have hd12 : (l.set k c).getD 12 ' ' = l.getD 12 ' ' := getD_set_ne l k 12 c (by omega)
      have hkl : k < (l.take 12).length := by
        rw [List.length_take]
        omega
      have hsum := isbnSum_set (l.take 12) 0 k c hkl
      have hgd : (l.take 12).getD k ' ' = l.getD k ' ' := getD_take l k 12 hk12
      rw [ht, hd12] at hvv2
      rw [hgd] at hsum
      by_cases hpar : (0 + k) % 2 = 0
      · rw [if_pos hpar] at hsum
        omega
      · rw [if_neg hpar] at hsum
        omega
    · have hk2 : k = 12 := by omega
      subst hk2
      have ht : (l.set 12 c).take 12 = l.take 12 := take_set_ge l 12 12 c (le_refl _)
      have hd12 : (l.set 12 c).getD 12 ' ' = c := getD_set_eq l 12 c (by omega)
      rw [ht, hd12] at hvv2
      omega

theorem dropWhile_eq_self_of_neg (p : Char → Bool) (l : List Char)
    (h : ∀ c ∈ l, p c = false) : l.dropWhile p = l := by
  cases l with
  | nil => rfl
  | cons c cs => exact List.dropWhile_cons_of_neg (by simp [h c (List.mem_cons_self c cs)])

theorem trimCh_eq_self (l : List Char) (h : ∀ c ∈ l, isJsWs c = false) : trimCh l = l := by
  unfold trimCh
  rw [dropWhile_eq_self_of_neg _ _ h,
      dropWhile_eq_self_of_neg _ _ (fun c hc => h c (List.mem_reverse.mp hc)),
      List.reverse_reverse]

theorem splitWsCh_cons (c : Char) (cs : List Char) : splitWsCh (c :: cs) =
    if isJsWs c then
      (match cs with
       | c2 :: _ => if isJsWs c2 then splitWsCh cs else [] :: splitWsCh cs
       | [] => [] :: splitWsCh cs)
    else
      (match splitWsCh cs with
       | w :: ws => (c :: w) :: ws
       | [] => [[c]]) := rfl

theorem splitWs_no_ws (l : List Char) (hne : l ≠ []) (h : ∀ c ∈ l, isJsWs c = false) :
    splitWsCh l = [l] := by
  induction l with
  | nil => exact absurd rfl hne
  | cons c cs ih =>
    have hc : isJsWs c = false := h c (List.mem_cons_self c cs)
    rw [splitWsCh_cons, hc]
    simp only [Bool.false_eq_true, if_false]
    by_cases hcs : cs = []
    · subst hcs
      rfl
    · rw [ih hcs (fun x hx => h x (List.mem_cons_of_mem c hx))]

theorem map_lower_digits (l : List Char) (hdig : ∀ c ∈ l, isDigitCh c = true) :
    l.map asciiLowerChar = l := by
  induction l with
  | nil => rfl
  | cons c cs ih =>
    have hall : ∀ x ∈ digitChars, asciiLowerChar x = x := by decide
    rw [List.map_cons, hall c (mem_digitChars c (hdig c (List.mem_cons_self c cs))),
        ih (fun x hx => hdig x (List.mem_cons_of_mem c hx))]

theorem byScanGo_digits (b : Bool) (l : List Char) (hdig : ∀ c ∈ l, isDigitCh c = true) :
    byScanGo b l = false := by
  induction l generalizing b with
  | nil => rfl
  | cons c cs ih =>
    have hcb : (decide (c = 'b') || decide (c = 'B')) = false := by
      have hall : ∀ x ∈ digitChars, (decide (x = 'b') || decide (x = 'B')) = false := by
        decide
      exact hall c (mem_digitChars c (hdig c (List.mem_cons_self c cs)))
    simp only [byScanGo, hcb]
    simp [ih (isWordChar c) (fun x hx => hdig x (List.mem_cons_of_mem c hx))]

theorem keyword_digits (l : List Char) (hdig : ∀ c ∈ l, isDigitCh c = true) :
    (bookKeywords.any fun kw => containsSub kw.data l) = false := by
  have hall : ∀ kw ∈ bookKeywords, ∃ x ∈ kw.data, isDigitCh x = false := by decide
  rw [List.any_eq_false]
  intro kw hkw hcc
  obtain ⟨x, hx1, hx2⟩ := hall kw hkw
  have hmem := containsSub_mem kw.data l hcc x hx1
  rw [hdig x hmem] at hx2
  exact absurd hx2 (by simp)

theorem bookScore_digits (l : List Char) (hne : l ≠ [])
    (hdig : ∀ c ∈ l, isDigitCh c = true) : getBookTitleScore l = 20 := by
  have hws : ∀ c ∈ l, isJsWs c = false := fun c hc => digit_not_ws c (hdig c hc)
  have htr : trimCh l = l := trimCh_eq_self l hws
  have hsp : splitWsCh l = [l] := splitWs_no_ws l hne hws
  have hlow : l.map asciiLowerChar = l := map_lower_digits l hdig
  have hkw := keyword_digits l hdig
  have hby : byScanGo false l = false := byScanGo_digits false l hdig
  obtain ⟨c0, rest, rfl⟩ : ∃ c0 rest, l = c0 :: rest := by
    cases l with
    | nil => exact absurd rfl hne
    | cons a as => exact ⟨a, as, rfl⟩
  have hc0 : c0 ∈ digitChars :=
    mem_digitChars c0 (hdig c0 (List.mem_cons_self c0 rest))
  have hnotup : ('A' ≤ c0 && c0 ≤ 'Z') = false := by
    have hall : ∀ x ∈ digitChars, ('A' ≤ x && x ≤ 'Z') = false := by decide
    exact hall c0 hc0
  have hnotq : (decide (c0 = '"') || decide (c0 = '\'')) = false := by
    have hall : ∀ x ∈ digitChars, (decide (x = '"') || decide (x = '\'')) = false := by
      decide
    exact hall c0 hc0
  have hq : quotedTest (c0 :: rest) = false := by
    simp only [quotedTest, hnotq]
    simp
  simp only [getBookTitleScore, byScan]
  rw [htr, hsp, hlow]
  simp [hnotup, hkw, hq, hby]

theorem cleanIsbn_digits (l : List Char) (hdig : ∀ c ∈ l, isDigitCh c = true) :
    cleanIsbn l = l := by
  unfold cleanIsbn
  rw [List.filter_eq_self]
  intro c hc
  have hall : ∀ x ∈ digitChars, (!(decide (x = '-') || isJsWs x)) = true := by decide
  exact hall c (mem_digitChars c (hdig c hc))

/-- C3: for every 13-digit string with valid 978/979 prefix and valid
mod-10 weighted checksum the Book detector's detect reports `definite`;
changing exactly one digit yields `high` when the 978/979 prefix
survives, and no match at all when the change breaks the prefix. -/
theorem claim3_isbn13_roundtrip (s : List Char) (h13 : s.length = 13)
    (hdig : ∀ c ∈ s, isDigitCh c = true)
    (hpre : isbn13Pre s = true)
    (hval : validateIsbn13 s = true)
    (k : Nat) (hk : k < 13) (c : Char) (hc : isDigitCh c = true)
    (hne : c ≠ s.getD k ' ') :
    (bookDetect (String.mk s)).map (fun r => r.confidence) = some .definite ∧
    (isbn13Pre (s.set k c) = true →
      (bookDetect (String.mk (s.set k c))).map (fun r => r.confidence) = some .high) ∧
    (isbn13Pre (s.set k c) = false → bookDetect (String.mk (s.set k c)) = none) := by
  have hdigt : ∀ x ∈ s.set k c, isDigitCh x = true := by
    intro x hx
    rcases mem_of_mem_set s k c x hx with rfl | hx2
    · exact hc
    · exact hdig x hx2
  have h13t : (s.set k c).length = 13 := by rw [List.length_set]; exact h13
  have hvalt : validateIsbn13 (s.set k c) = false :=
    validateIsbn13_set_false s h13 hdig hval k hk c hc hne
  have hstrict_s : isbn13Strict s = true := by
    simp [isbn13Strict, hpre, h13, List.all_eq_true]
    exact hdig
  refine ⟨?_, ?_, ?_⟩
  · have hdi : detectIsbn s = some (.isbn13, s, true) := by
      unfold detectIsbn
      rw [cleanIsbn_digits s hdig, if_pos hstrict_s, hval]
    unfold bookDetect
    rw [show (String.mk s).data = s from rfl, hdi]
    simp
  · intro h2pre
    have hstrict_t : isbn13Strict (s.set k c) = true := by
      simp [isbn13Strict, h2pre, h13t, List.all_eq_true]
      exact hdigt
    have hdi2 : detectIsbn (s.set k c) = some (.isbn13, s.set k c, false) := by
      unfold detectIsbn
      rw [cleanIsbn_digits _ hdigt, if_pos hstrict_t, hvalt]
    unfold bookDetect
    rw [show (String.mk (s.set k c)).data = s.set k c from rfl, hdi2]
    simp
  · intro h2pre
    have hs13f : isbn13Strict (s.set k c) = false := by
      simp [isbn13Strict, h2pre]
    have hs10f : isbn10Strict (s.set k c) = false := by
      simp [isbn10Strict, h13t]
    have hdi3 : detectIsbn (s.set k c) = none := by
      unfold detectIsbn
      rw [cleanIsbn_digits _ hdigt]
      rw [if_neg (by simp [hs13f]), if_neg (by simp [hs10f])]
    have hne_t : s.set k c ≠ [] := by
      intro h0
      rw [h0] at h13t
      simp at h13t
    have hgb : detectGoogleBooksUrl (s.set k c) = none := by
      cases hgb2 : detectGoogleBooksUrl (s.set k c) with
      | none => rfl
      | some v =>
        exfalso
        obtain ⟨lit, hlit, hcont⟩ := scanClass_some_contains _ _ _ _ hgb2
        simp only [List.mem_singleton] at hlit
        subst hlit
        have hbmem : 'b' ∈ s.set k c :=
          containsSub_mem _ _ hcont 'b' (by decide)
        have := hdigt 'b' hbmem
        exact absurd this (by decide)
    have hnosep : containsSub "://".data (s.set k c) = false := by
      cases hx : containsSub "://".data (s.set k c) with
      | false => rfl
      | true =>
        exfalso
        have hcmem := containsSub_mem _ _ hx ':' (by decide)
        have := hdigt ':' hcmem
        exact absurd this (by decide)
    have hscore : getBookTitleScore (s.set k c) = 20 := bookScore_digits _ hne_t hdigt
    have htrt : trimCh (s.set k c) = s.set k c :=
      trimCh_eq_self _ (fun x hx => digit_not_ws x (hdigt x hx))
    unfold bookDetect
    rw [show (String.mk (s.set k c)).data = s.set k c from rfl, hdi3, hgb, htrt]
    rw [if_pos (⟨by omega, hnosep⟩ :
      3 ≤ (s.set k c).length ∧ containsSub "://".data (s.set k c) = false)]
    rw [hscore]
    rw [if_neg (by omega : ¬(35 ≤ 20))]

/-- Witness for C3 at the valid ISBN 9780136042594 with digit 5 changed
from 3 to 7 (prefix intact). -/
theorem claim3_witness :
    (bookDetect (String.mk "9780136042594".data)).map (fun r => r.confidence)
        = some .definite ∧
      (bookDetect (String.mk ("9780136042594".data.set 5 '7'))).map (fun r => r.confidence)
        = some .high := by
  have H := claim3_isbn13_roundtrip "9780136042594".data (by decide) (by decide)
    (by decide) (by decide) 5 (by decide) '7' (by decide) (by decide)
  exact ⟨H.1, H.2.1 (by decide)⟩

/-- The content types the YouTube detector distinguishes. -/
inductive YtContentType where
  | video
  | shorts
  | playlist
  | channel
  | videoId
deriving DecidableEq, Repr

/-- The display labels of the YouTube detector (typeLabels). -/
def ytTypeLabel : YtContentType → String
  | .video => "YouTube Video"
  | .shorts => "YouTube Short"
  | .playlist => "YouTube Playlist"
  | .channel => "YouTube Channel"
  | .videoId => "YouTube Video"

/-- The `contentType` metadata strings of the YouTube detector. -/
def ytTypeName : YtContentType → String
  | .video => "video"
  | .shorts => "shorts"
  | .playlist => "playlist"
  | .channel => "channel"
  | .videoId => "video-id"

/-- `(?:youtube\.com\/watch\?v=|youtu\.be\/)([a-zA-Z0-9_-]{11})`. -/
def ytVideoScan1 (l : List Char) : Option (List Char) :=
  scanExact ["youtube.com/watch?v=".data, "youtu.be/".data] 11 l

/-- `youtube\.com\/embed\/([a-zA-Z0-9_-]{11})`. -/
def ytVideoScan2 (l : List Char) : Option (List Char) :=
  scanExact ["youtube.com/embed/".data] 11 l

/-- `youtube\.com\/v\/([a-zA-Z0-9_-]{11})`. -/
def ytVideoScan3 (l : List Char) : Option (List Char) :=
  scanExact ["youtube.com/v/".data] 11 l

/-- `youtube\.com\/shorts\/([a-zA-Z0-9_-]{11})`. -/
def ytShortsScan (l : List Char) : Option (List Char) :=
  scanExact ["youtube.com/shorts/".data] 11 l

/-- `youtube\.com\/playlist\?list=([a-zA-Z0-9_-]+)`. -/
def ytPlaylistScan1 (l : List Char) : Option (List Char) :=
  scanClass isIdChar ["youtube.com/playlist?list=".data] l

/-- `[?&]list=([a-zA-Z0-9_-]+)`. -/
def ytPlaylistScan2 (l : List Char) : Option (List Char) :=
  scanClass isIdChar ["?list=".data, "&list=".data] l

/-- `youtube\.com\/@([a-zA-Z0-9_-]+)`. -/
def ytChannelScan1 (l : List Char) : Option (List Char) :=
  scanClass isIdChar ["youtube.com/@".data] l

/-- `youtube\.com\/channel\/([a-zA-Z0-9_-]+)`. -/
def ytChannelScan2 (l : List Char) : Option (List Char) :=
  scanClass isIdChar ["youtube.com/channel/".data] l

/-- `youtube\.com\/c\/([a-zA-Z0-9_-]+)`. -/
def ytChannelScan3 (l : List Char) : Option (List Char) :=
  scanClass isIdChar ["youtube.com/c/".data] l

/-- detectYouTubeType (youtube.ts lines 36-79): video patterns, shorts,
playlist patterns, channel patterns, then the bare 11-character id. -/
def detectYouTubeType (l : List Char) : Option (YtContentType × List Char × String) :=
  match ytVideoScan1 l with
  | some v => some (.video, v, "video-url")
  | none =>
  match ytVideoScan2 l with
  | some v => some (.video, v, "video-url")
  | none =>
  match ytVideoScan3 l with
  | some v => some (.video, v, "video-url")
  | none =>
  match ytShortsScan l with
  | some v => some (.shorts, v, "shorts-url")
  | none =>
  match ytPlaylistScan1 l with
  | some v => some (.playlist, v, "playlist-url")
  | none =>
  match ytPlaylistScan2 l with
  | some v => some (.playlist, v, "playlist-url")
  | none =>
  match ytChannelScan1 l with
  | some v => some (.channel, v, "channel-url")
  | none =>
  match ytChannelScan2 l with
  | some v => some (.channel, v, "channel-url")
  | none =>
  match ytChannelScan3 l with
  | some v => some (.channel, v, "channel-url")
  | none =>
  if l.length = 11 ∧ l.all isIdChar = true then some (.videoId, l, "bare-video-id")
  else none

/-- youtubeDetector.detect (youtube.ts lines 88-117). -/
def youtubeDetect (input : String) : Option DetectionResult :=
  match detectYouTubeType input.data with
  | none => none
  | some r =>
    let isUrl := containsSub "youtube.com".data input.data ||
                 containsSub "youtu.be".data input.data
    some { pluginId := "youtube", displayName := ytTypeLabel r.1,
           confidence := if isUrl then .definite else .high,
           inputType := if isUrl then .url else .identifier,
           context := some { extractedId := some ⟨r.2.1⟩,
                             matchedPattern := some r.2.2,
                             metadata := [("contentType", .str (ytTypeName r.1))] } }

/-- The YouTube detector record (youtube.ts): detectAll wraps detect. -/
def youtubeDetector : ResourceDetector :=
  { id := "youtube", priority := 100, detect := youtubeDetect,
    detectAll := some fun s => (youtubeDetect s).toList }

/-- Model of the platform URL parser (`new URL`), restricted to the
http(s) inputs this code exercises: strip an ASCII-case-insensitive
`http://` or `https://` scheme, read the authority up to `/`, `?` or
`#`, drop userinfo up to the last `@` and a `:port`, and produce the
lower-cased hostname (none when the remaining host is empty or holds
whitespace, modelling a parse failure). -/
def httpRest (l : List Char) : Option (List Char) :=
  if (l.take 7).map asciiLowerChar = "http://".data then some (l.drop 7)
  else if (l.take 8).map asciiLowerChar = "https://".data then some (l.drop 8)
  else none

/-- The segment after the last `@` (drops the userinfo of an authority). -/
def afterLastAt (l : List Char) : List Char :=
  (l.reverse.takeWhile (fun c => !(c = '@'))).reverse

/-- Hostname of an http(s) URL, per the model described at `httpRest`. -/
def urlHostname (l : List Char) : Option (List Char) :=
  match httpRest l with
  | none => none
  | some rest =>
    let auth := rest.takeWhile fun c => !(c = '/' || c = '?' || c = '#')
    let host := (afterLastAt auth).takeWhile fun c => !(c = ':')
    if host.isEmpty || host.any isJsWs then none else some (host.map asciiLowerChar)

/-- isValidUrl (article detector): `new URL` succeeds with an http(s)
protocol. -/
def isValidUrl (l : List Char) : Bool := (urlHostname l).isSome

/-- Deletion of the first occurrence of a fragment, modelling
`String.prototype.replace` with an empty replacement. -/
def dropFirstOcc (pat : List Char) : List Char → List Char
  | [] => []
  | c :: cs =>
    if pat.isPrefixOf (c :: cs) then (c :: cs).drop pat.length
    else c :: dropFirstOcc pat cs

/-- extractDomain (article detector): hostname of the input (with
`https://` prepended when it does not start with `http`), then
`replace('www.', '')`. -/
def extractDomain (l : List Char) : List Char :=
  match urlHostname (if "http".data.isPrefixOf l then l else "https://".data ++ l) with
  | some h => dropFirstOcc "www.".data h
  | none => []

/-- KNOWN_ARTICLE_DOMAINS (article detector). -/
def KNOWN_ARTICLE_DOMAINS : List String :=
  ["medium.com", "dev.to", "hashnode.dev", "substack.com", "blog.",
   "news.", "article.", "post.", "wikipedia.org", "docs."]

/-- The `(\.[a-zA-Z]{2,})+([\/\?#].*)?$` tail of the protocol-less URL
shape: one or more dot-separated alphabetic labels of length at least
two, then an optional `/`, `?` or `#` tail free of line terminators. -/
def dotGroups (l : List Char) : Bool :=
  match l with
  | '.' :: rest =>
    let letters := rest.takeWhile isAsciiLetter
    let r2 := rest.dropWhile isAsciiLetter
    2 ≤ letters.length &&
      (match r2 with
       | [] => true
       | '.' :: _ => dotGroups r2
       | c :: cs => (c = '/' || c = '?' || c = '#') && cs.all fun x => !isLineTerm x)
  | _ => false
  termination_by l.length
  decreasing_by
    rename_i rest2
    have := (List.dropWhile_sublist (l := rest2) isAsciiLetter).length_le
    simp
    omega

/-- One alternative of the protocol-less URL shape
`^(www\.)?[a-zA-Z0-9]([a-zA-Z0-9-]*[a-zA-Z0-9])?(\.[a-zA-Z]{2,})+...$`,
without the optional `www.`: a leading alphanumeric label which may
contain hyphens but must end alphanumeric, then the dot groups. -/
def looksLikeUrlCore (l : List Char) : Bool :=
  match l with
  | [] => false
  | c :: _ =>
    isAsciiAlphanum c &&
      ((match (l.takeWhile fun x => isAsciiAlphanum x || x = '-').getLast? with
        | some lastc => isAsciiAlphanum lastc
        | none => false) &&
       dotGroups (l.dropWhile fun x => isAsciiAlphanum x || x = '-'))

/-- looksLikeUrl (article detector): the shape above, with or without
the optional `www.` consumed (the regexp engine considers both). -/
def looksLikeUrl (l : List Char) : Bool :=
  (if "www.".data.isPrefixOf l then looksLikeUrlCore (l.drop 4) else false) ||
    looksLikeUrlCore l

/-- articleDetector.detect (article.ts lines 65-105). -/
def articleDetect (input : String) : Option DetectionResult :=
  if isValidUrl input.data then
    (let domain := extractDomain input.data
     let isKnown := KNOWN_ARTICLE_DOMAINS.any fun p => containsSub p.data domain
     some { pluginId := "article", displayName := "Article / Website",
            confidence := if isKnown then .high else .medium,
            inputType := .url,
            context := some { metadata := [("domain", .str ⟨domain⟩),
                                           ("isKnownArticleDomain", .boolVal isKnown)] } })
  else if looksLikeUrl input.data then
    (let domain := extractDomain input.data
     some { pluginId := "article", displayName := "Article / Website",
            confidence := .medium, inputType := .url,
            context := some { metadata := [("domain", .str ⟨domain⟩),
                                           ("needsProtocol", .boolVal true)] } })
  else none

/-- The article detector record (article.ts): detectAll wraps detect. -/
def articleDetector : ResourceDetector :=
  { id := "article", priority := 10, detect := articleDetect,
    detectAll := some fun s => (articleDetect s).toList }

/-- The four built-in detectors in their registration order
(detection/index.ts lines 24-27). -/
def builtinDetectors : List ResourceDetector :=
  [youtubeDetector, paperDetector, bookDetector, articleDetector]

/-- C9: with the four built-in detectors and the default configuration,
detect on the canonical YouTube watch URL returns pluginId "youtube",
confidence definite, and extracted id "dQw4w9WgXcQ". -/
theorem claim9_youtube_url_scenario :
    (engineDetect builtinDetectors DEFAULT_CONFIG
        "https://www.youtube.com/watch?v=dQw4w9WgXcQ").map
      (fun r => (r.pluginId, r.confidence, r.context.bind (fun ctx => ctx.extractedId)))
      = some ("youtube", .definite, some "dQw4w9WgXcQ") := by
  decide

/-- C10: an input carrying a `?list=` or `&list=` parameter with a
non-empty identifier value, containing neither youtube.com nor
youtu.be and matching no video, embed or shorts pattern, is detected
as a playlist with the captured list value, confidence high and
inputType identifier. -/
theorem claim10_playlist_param (s : String) (v : List Char)
    (h1 : ytVideoScan1 s.data = none)
    (h2 : ytVideoScan2 s.data = none)
    (h3 : ytVideoScan3 s.data = none)
    (h4 : ytShortsScan s.data = none)
    (h5 : containsSub "youtube.com".data s.data = false)
    (h6 : containsSub "youtu.be".data s.data = false)
    (h7 : ytPlaylistScan2 s.data = some v) :
    youtubeDetect s = some
      { pluginId := "youtube", displayName := "YouTube Playlist",
        confidence := .high, inputType := .identifier,
        context := some { extractedId := some ⟨v⟩, matchedPattern := some "playlist-url",
                          metadata := [("contentType", .str "playlist")] } } := by
  have hp1 : ytPlaylistScan1 s.data = none := by
    cases hx : ytPlaylistScan1 s.data with
    | none => rfl
    | some w =>
      exfalso
      obtain ⟨lit, hlit, hcont⟩ := scanClass_some_contains _ _ _ _ hx
      simp only [List.mem_singleton] at hlit
      subst hlit
      have hcont2 : containsSub "youtube.com".data s.data = true :=
        containsSub_of_prefix _ _ _
          (List.isPrefixOf_iff_prefix.mp (by decide)) hcont
      rw [h5] at hcont2
      exact absurd hcont2 (by simp)
  unfold youtubeDetect detectYouTubeType
  rw [h1, h2, h3, h4, hp1, h7, h5, h6]
  rfl

/-- Witness for C10 on a non-YouTube URL carrying a list parameter. -/
theorem claim10_witness :
    youtubeDetect "https://example.com/feed?list=PLabc123" = some
      { pluginId := "youtube", displayName := "YouTube Playlist",
        confidence := .high, inputType := .identifier,
        context := some { extractedId := some (String.mk "PLabc123".data),
                          matchedPattern := some "playlist-url",
                          metadata := [("contentType", .str "playlist")] } } :=
  claim10_playlist_param "https://example.com/feed?list=PLabc123" "PLabc123".data
    (by decide) (by decide) (by decide) (by decide) (by decide) (by decide) (by decide)
